import Mathlib

/-!
Shallow embedding of the path parser `parse_ae_ren_data` from
`code/notebooks/build_catalog_guide.ipynb`.

Python strings are modelled as lists of characters (`Str`), and Python's
`str.split(sep)` for a non-empty separator is modelled by `pySplit`, which
scans left to right splitting at each leftmost non-overlapping occurrence of
the separator.  The source function is

  def parse_ae_ren_data(filepath):
      try:
          institution_id, installation, source_id, experiment_id, table_id, \
            variable_id, grid_label, _ = \
              filepath.split("s3://wfclimres/")[1].split("/")
          filepath = filepath.split(".zmetadata")[0]
      except Exception as e:
          return {INVALID_ASSET: filepath, TRACEBACK: traceback.format_exc()}
      simulation_dict = {"ec-earth3": "EC-Earth3", "mpi-esm1-2-hr": "MPI-ESM1-2-HR",
                         "miroc6": "MIROC6", "taiesm1": "TaiESM1", "era5": "ERA5"}
      info = {"installation": installation, "activity_id": "WRF",
              "institution_id": "ERA", "source_id": simulation_dict[source_id],
              "experiment_id": experiment_id, "table_id": table_id,
              "variable_id": variable_id, "grid_label": grid_label,
              "path": filepath}
      return info

Note that the `simulation_dict[source_id]` lookup happens OUTSIDE the
`try`/`except` block, so a `KeyError` there is not converted into the failure
dictionary; the embedding records that possibility as a separate
`ParseOutcome.uncaughtKeyError` constructor.  The text produced by
`traceback.format_exc()` is abstracted to the name of the raised exception;
no claim inspects its content.
-/

abbrev Str := List Char

/-- Fuel-indexed worker for `pySplit`; the fuel only makes the recursion
structural and is irrelevant once it is at least the length of the string
(`pySplitF_fuel`). -/
def pySplitF (sep : Str) : Nat → Str → List Str
  | _, [] => [[]]
  | 0, s => [s]
  | fuel + 1, c :: rest =>
    if sep ≠ [] ∧ sep <+: (c :: rest) then
      [] :: pySplitF sep fuel ((c :: rest).drop sep.length)
    else
      match pySplitF sep fuel rest with
      | [] => [[c]]
      | hd :: tl => (c :: hd) :: tl

/-- Python `s.split(sep)` for a non-empty separator `sep`: scan `s` from the
left, cutting at each leftmost non-overlapping occurrence of `sep`.  On an
empty separator the real Python raises; the guard keeps the splitting branch
unreachable in that case (none of the separators used below is empty). -/
def pySplit (sep s : Str) : List Str := pySplitF sep s.length s

/-- The root prefix the parser splits on. -/
def sep_root : Str := "s3://wfclimres/".toList

/-- The path-segment separator. -/
def sep_slash : Str := "/".toList

/-- The terminal metadata filename stripped from the path. -/
def sep_zme : Str := ".zmetadata".toList

/-- The fixed lookup table from lowercase simulation tokens to canonical
display names, as written in the source. -/
def simulation_dict : List (Str × Str) :=
  [("ec-earth3".toList, "EC-Earth3".toList),
   ("mpi-esm1-2-hr".toList, "MPI-ESM1-2-HR".toList),
   ("miroc6".toList, "MIROC6".toList),
   ("taiesm1".toList, "TaiESM1".toList),
   ("era5".toList, "ERA5".toList)]

/-- The five canonical display names, i.e. the values of `simulation_dict`. -/
def canonicalNames : List Str :=
  ["EC-Earth3".toList, "MPI-ESM1-2-HR".toList, "MIROC6".toList,
   "TaiESM1".toList, "ERA5".toList]

/-- A successfully parsed catalog record; fields in the order they are
assembled in the source dictionary. -/
structure CatalogRecord where
  installation : Str
  activity_id : Str
  institution_id : Str
  source_id : Str
  experiment_id : Str
  table_id : Str
  variable_id : Str
  grid_label : Str
  path : Str
  deriving DecidableEq

/-- The failure dictionary `{INVALID_ASSET: filepath, TRACEBACK: ...}`. -/
structure FailureRecord where
  invalid_asset : Str
  traceback : Str
  deriving DecidableEq

/-- What one invocation of the Python function can do: return the metadata
dictionary, return the failure dictionary, or (for a simulation token missing
from `simulation_dict`) let a `KeyError` escape uncaught. -/
inductive ParseOutcome where
  | success : CatalogRecord → ParseOutcome
  | failure : FailureRecord → ParseOutcome
  | uncaughtKeyError : Str → ParseOutcome
  deriving DecidableEq

/-- Abstraction of `traceback.format_exc()` when `[1]` raises `IndexError`. -/
def indexErrorTrace : Str := "IndexError: list index out of range".toList

/-- Abstraction of `traceback.format_exc()` when the 8-way unpack raises
`ValueError`. -/
def valueErrorTrace : Str := "ValueError: unpacking mismatch".toList

/-- `filepath.split(".zmetadata")[0]` — the input truncated at the first
occurrence of `.zmetadata` (the whole input if there is none). -/
def stripZmetadata (p : Str) : Str := (pySplit sep_zme p).headD []

/-- The parser.  Mirrors the Python statement for statement:
`split("s3://wfclimres/")[1]` (IndexError if the list has fewer than two
elements), the 8-way unpack of `.split("/")` (ValueError unless exactly eight
parts), `split(".zmetadata")[0]`, then the `simulation_dict[source_id]`
lookup outside the exception handler.  Record fields are given in declaration
order: installation, activity_id, institution_id, source_id, experiment_id,
table_id, variable_id, grid_label, path.  The first path segment is bound in
Python to the (unused) local `institution_id`, and the eighth to `_`. -/
def parse_ae_ren_data (filepath : Str) : ParseOutcome :=
  match pySplit sep_root filepath with
  | _ :: rest :: _ =>
    match pySplit sep_slash rest with
    | [_instSeg, installation, source_id, experiment_id, table_id,
       variable_id, grid_label, _terminal] =>
      match List.lookup source_id simulation_dict with
      | some canonical =>
        ParseOutcome.success
          ⟨installation, "WRF".toList, "ERA".toList, canonical,
           experiment_id, table_id, variable_id, grid_label,
           stripZmetadata filepath⟩
      | none => ParseOutcome.uncaughtKeyError source_id
    | _ => ParseOutcome.failure ⟨filepath, valueErrorTrace⟩
  | _ => ParseOutcome.failure ⟨filepath, indexErrorTrace⟩

/-- No occurrence of `sep` starts strictly before position `a.length` in the
string `a ++ sep ++ t`; i.e. the explicit occurrence of `sep` after `a` is
the first one. -/
abbrev NoEarlyOcc (sep a t : Str) : Prop :=
  ∀ x ∈ a.tails, x ≠ [] → ¬ sep <+: (x ++ (sep ++ t))

/-- Inverse of `pySplit`: interleave the separator back between the parts. -/
def joinSep (sep : Str) : List Str → Str
  | [] => []
  | [x] => x
  | x :: y :: rest => x ++ sep ++ joinSep sep (y :: rest)

/-- All nine attributes of a record are non-empty strings. -/
abbrev allNonEmpty (r : CatalogRecord) : Prop :=
  r.installation ≠ [] ∧ r.activity_id ≠ [] ∧ r.institution_id ≠ [] ∧
  r.source_id ≠ [] ∧ r.experiment_id ≠ [] ∧ r.table_id ≠ [] ∧
  r.variable_id ≠ [] ∧ r.grid_label ≠ [] ∧ r.path ≠ []

theorem pySplitF_fuel (sep : Str) :
    ∀ (f₁ : Nat) (s : Str) (f₂ : Nat), s.length ≤ f₁ → s.length ≤ f₂ →
      pySplitF sep f₁ s = pySplitF sep f₂ s := by
  intro f₁
  induction f₁ with
  | zero =>
    intro s f₂ h₁ _
    have hs : s = [] := List.eq_nil_of_length_eq_zero (Nat.le_zero.mp h₁)
    subst hs
    cases f₂ <;> rfl
  | succ g₁ ih =>
    intro s f₂ h₁ h₂
    cases s with
    | nil => cases f₂ <;> rfl
    | cons c rest =>
      cases f₂ with
      | zero => simp [List.length_cons] at h₂
      | succ g₂ =>
        simp only [pySplitF]
        by_cases hcond : sep ≠ [] ∧ sep <+: (c :: rest)
        · simp only [if_pos hcond]
          have hseplen : 0 < sep.length := List.length_pos.mpr hcond.1
          have hdrop : ((c :: rest).drop sep.length).length ≤ g₁ := by
            simp only [List.length_drop, List.length_cons]
            simp only [List.length_cons] at h₁
            omega
          have hdrop₂ : ((c :: rest).drop sep.length).length ≤ g₂ := by
            simp only [List.length_drop, List.length_cons]
            simp only [List.length_cons] at h₂
            omega
          rw [ih _ g₂ hdrop hdrop₂]
        · simp only [if_neg hcond]
          have hr₁ : rest.length ≤ g₁ := by
            simp only [List.length_cons] at h₁; omega
          have hr₂ : rest.length ≤ g₂ := by
            simp only [List.length_cons] at h₂; omega
          rw [ih _ g₂ hr₁ hr₂]

/-- Unfolding: splitting the empty string. -/
theorem pySplit_nil (sep : Str) : pySplit sep [] = [[]] := rfl

/-- Unfolding: splitting a non-empty string takes one step. -/
theorem pySplit_cons (sep : Str) (c : Char) (rest : Str) :
    pySplit sep (c :: rest) =
      if sep ≠ [] ∧ sep <+: (c :: rest) then
        [] :: pySplit sep ((c :: rest).drop sep.length)
      else
        match pySplit sep rest with
        | [] => [[c]]
        | hd :: tl => (c :: hd) :: tl := by
  show pySplitF sep (rest.length + 1) (c :: rest) = _
  simp only [pySplitF]
  by_cases hcond : sep ≠ [] ∧ sep <+: (c :: rest)
  · simp only [if_pos hcond]
    have hseplen : 0 < sep.length := List.length_pos.mpr hcond.1
    have hdrop : ((c :: rest).drop sep.length).length ≤ rest.length := by
      simp only [List.length_drop, List.length_cons]; omega
    rw [pySplitF_fuel sep rest.length ((c :: rest).drop sep.length)
      ((c :: rest).drop sep.length).length hdrop (Nat.le_refl _)]
    rfl
  · simp only [if_neg hcond]
    rfl

/-- `pySplit` never returns the empty list. -/
theorem pySplit_ne_nil (sep : Str) : ∀ s : Str, pySplit sep s ≠ [] := by
  intro s
  cases s with
  | nil => rw [pySplit_nil]; exact List.cons_ne_nil _ _
  | cons c rest =>
    rw [pySplit_cons]
    by_cases hcond : sep ≠ [] ∧ sep <+: (c :: rest)
    · rw [if_pos hcond]; exact List.cons_ne_nil _ _
    · rw [if_neg hcond]
      cases hps : pySplit sep rest with
      | nil => exact List.cons_ne_nil _ _
      | cons hd tl => exact List.cons_ne_nil _ _

/-- Splitting a string that starts with the separator cuts an empty first
part. -/
theorem pySplit_append_self (sep t : Str) (hsep : sep ≠ []) :
    pySplit sep (sep ++ t) = [] :: pySplit sep t := by
  cases sep with
  | nil => exact absurd rfl hsep
  | cons a sep' =>
    rw [show (a :: sep') ++ t = a :: (sep' ++ t) from rfl, pySplit_cons]
    rw [if_pos ⟨hsep, ⟨t, rfl⟩⟩]
    rw [show a :: (sep' ++ t) = (a :: sep') ++ t from rfl, List.drop_left]

/-- A string with no occurrence of the separator is returned whole. -/
theorem pySplit_eq_single (sep : Str) :
    ∀ s : Str, ¬ sep <:+: s → pySplit sep s = [s] := by
  intro s
  induction s with
  | nil => intro _; exact pySplit_nil sep
  | cons c rest ih =>
    intro h
    rw [pySplit_cons]
    have hnpre : ¬ (sep ≠ [] ∧ sep <+: (c :: rest)) := by
      rintro ⟨-, hp⟩
      exact h hp.isInfix
    rw [if_neg hnpre]
    have hrest : ¬ sep <:+: rest := fun hi => h (List.infix_cons hi)
    rw [ih hrest]

/-- Splitting cuts exactly at the first occurrence of the separator. -/
theorem pySplit_first_occ (sep t : Str) (hsep : sep ≠ []) :
    ∀ a : Str, NoEarlyOcc sep a t →
      pySplit sep (a ++ (sep ++ t)) = a :: pySplit sep t := by
  intro a
  induction a with
  | nil =>
    intro _
    rw [List.nil_append, pySplit_append_self sep t hsep]
  | cons c a' ih =>
    intro hno
    rw [show (c :: a') ++ (sep ++ t) = c :: (a' ++ (sep ++ t)) from rfl,
      pySplit_cons]
    have hnpre : ¬ (sep ≠ [] ∧ sep <+: c :: (a' ++ (sep ++ t))) := by
      rintro ⟨-, hp⟩
      exact hno (c :: a') ((List.mem_tails _ _).mpr (List.suffix_refl _))
        (List.cons_ne_nil _ _) hp
    rw [if_neg hnpre]
    have hno' : NoEarlyOcc sep a' t := by
      intro x hx hxne
      exact hno x
        ((List.mem_tails _ _).mpr
          (((List.mem_tails _ _).mp hx).trans (List.suffix_cons c a')))
        hxne
    rw [ih hno']

/-- The first part returned by `pySplit` is a prefix of the input. -/
theorem pySplit_headD_le (sep : Str) :
    ∀ s : Str, (pySplit sep s).headD [] <+: s := by
  intro s
  induction s with
  | nil => rw [pySplit_nil]; exact List.nil_prefix
  | cons c rest ih =>
    rw [pySplit_cons]
    by_cases hcond : sep ≠ [] ∧ sep <+: (c :: rest)
    · rw [if_pos hcond]; exact List.nil_prefix
    · rw [if_neg hcond]
      obtain ⟨hd, tl, hps⟩ := List.exists_cons_of_ne_nil (pySplit_ne_nil sep rest)
      rw [hps]
      rw [hps] at ih
      simp only [List.headD_cons] at ih ⊢
      obtain ⟨u, hu⟩ := ih
      exact ⟨u, by rw [List.cons_append, hu]⟩

/-- The separator does not occur in the first part returned by `pySplit`. -/
theorem pySplit_headD_clean (sep : Str) (hsep : sep ≠ []) :
    ∀ s : Str, ¬ sep <:+: (pySplit sep s).headD [] := by
  intro s
  induction s with
  | nil =>
    rw [pySplit_nil]
    simp only [List.headD_cons]
    rw [List.infix_nil]
    exact hsep
  | cons c rest ih =>
    rw [pySplit_cons]
    by_cases hcond : sep ≠ [] ∧ sep <+: (c :: rest)
    · rw [if_pos hcond]
      simp only [List.headD_cons]
      rw [List.infix_nil]
      exact hsep
    · rw [if_neg hcond]
      obtain ⟨hd, tl, hps⟩ := List.exists_cons_of_ne_nil (pySplit_ne_nil sep rest)
      rw [hps]
      rw [hps] at ih
      simp only [List.headD_cons] at ih ⊢
      intro hinf
      rcases List.infix_cons_iff.mp hinf with hpre | hinf'
      · have h1 : hd <+: rest := by
          have h2 := pySplit_headD_le sep rest
          rw [hps] at h2
          simpa using h2
        obtain ⟨u, hu⟩ := h1
        have h3 : c :: hd <+: c :: rest := ⟨u, by rw [List.cons_append, hu]⟩
        exact hcond ⟨hsep, hpre.trans h3⟩
      · exact ih hinf'

/-- Joining the parts of a split with the separator restores the input. -/
theorem joinSep_pySplitF (sep : Str) :
    ∀ (n : Nat) (s : Str), s.length ≤ n →
      joinSep sep (pySplit sep s) = s := by
  intro n
  induction n with
  | zero =>
    intro s h
    have hs : s = [] := List.eq_nil_of_length_eq_zero (Nat.le_zero.mp h)
    subst hs
    rfl
  | succ m ih =>
    intro s hlen
    cases s with
    | nil => rfl
    | cons c rest =>
      rw [pySplit_cons]
      by_cases hcond : sep ≠ [] ∧ sep <+: (c :: rest)
      · rw [if_pos hcond]
        obtain ⟨t, ht⟩ := hcond.2
        have hdrop : (c :: rest).drop sep.length = t := by
          rw [← ht, List.drop_left]
        rw [hdrop]
        obtain ⟨hd, tl, hps⟩ := List.exists_cons_of_ne_nil (pySplit_ne_nil sep t)
        have htlen : t.length ≤ m := by
          have hlt := congrArg List.length ht
          simp only [List.length_append, List.length_cons] at hlt
          have hsl : 0 < sep.length := List.length_pos.mpr hcond.1
          simp only [List.length_cons] at hlen
          omega
        rw [hps]
        show [] ++ sep ++ joinSep sep (hd :: tl) = c :: rest
        rw [← hps, ih t htlen, List.nil_append, ht]
      · rw [if_neg hcond]
        obtain ⟨hd, tl, hps⟩ := List.exists_cons_of_ne_nil (pySplit_ne_nil sep rest)
        have hr : rest.length ≤ m := by
          simp only [List.length_cons] at hlen; omega
        have hjoin : joinSep sep (hd :: tl) = rest := by
          rw [← hps]; exact ih rest hr
        rw [hps]
        cases tl with
        | nil =>
          simp only [joinSep] at hjoin
          show c :: hd = c :: rest
          rw [hjoin]
        | cons y tl' =>
          simp only [joinSep] at hjoin
          show (c :: hd) ++ sep ++ joinSep sep (y :: tl') = c :: rest
          rw [← hjoin]
          simp [List.cons_append, List.append_assoc]

/-- Joining the parts of a split with the separator restores the input. -/
theorem joinSep_pySplit (sep s : Str) : joinSep sep (pySplit sep s) = s :=
  joinSep_pySplitF sep s.length s (Nat.le_refl _)

/-- Splitting the input on the root prefix, when the input starts with the
prefix and the prefix does not reoccur in the remainder, yields exactly the
empty part and the remainder. -/
theorem pySplit_root_append (rest : Str) (hroot : ¬ sep_root <:+: rest) :
    pySplit sep_root (sep_root ++ rest) = [[], rest] := by
  rw [pySplit_append_self sep_root rest (by decide),
    pySplit_eq_single sep_root rest hroot]

/-- A successful lookup returns one of the table's values. -/
theorem lookup_simulation_dict_mem (k c : Str)
    (h : List.lookup k simulation_dict = some c) : c ∈ canonicalNames := by
  simp only [simulation_dict, List.lookup] at h
  repeat' split at h
  all_goals simp_all [canonicalNames]

/-- Every value of the lookup table is a non-empty string. -/
theorem canonicalNames_ne_nil (c : Str) (h : c ∈ canonicalNames) : c ≠ [] := by
  fin_cases h <;> decide

/-- Shape of a successful parse: on `sep_root ++ rest` where the remainder
splits into exactly eight segments, the prefix does not reoccur and the third
segment is a key of the table, the parser returns a record whose fields are:
the second segment as installation, the constants "WRF"/"ERA", the canonical
name from the table, segments four to seven verbatim, and the input truncated
at the first occurrence of ".zmetadata".  The first and eighth segments are
not used. -/
theorem parse_success_shape (rest s₁ s₂ s₃ s₄ s₅ s₆ s₇ s₈ c : Str)
    (hsplit : pySplit sep_slash rest = [s₁, s₂, s₃, s₄, s₅, s₆, s₇, s₈])
    (hroot : ¬ sep_root <:+: rest)
    (hlook : List.lookup s₃ simulation_dict = some c) :
    parse_ae_ren_data (sep_root ++ rest) =
      ParseOutcome.success
        ⟨s₂, "WRF".toList, "ERA".toList, c, s₄, s₅, s₆, s₇,
         stripZmetadata (sep_root ++ rest)⟩ := by
  unfold parse_ae_ren_data
  rw [pySplit_root_append rest hroot]
  simp only [hsplit, hlook]

/-- Inversion of a successful parse: the source_id was obtained from the
lookup table, the activity and institution are the fixed constants, and the
path is the input truncated at the first `.zmetadata`. -/
theorem parse_success_inv (p : Str) (r : CatalogRecord)
    (h : parse_ae_ren_data p = ParseOutcome.success r) :
    (∃ k, List.lookup k simulation_dict = some r.source_id) ∧
    r.activity_id = "WRF".toList ∧ r.institution_id = "ERA".toList ∧
    r.path = stripZmetadata p := by
  unfold parse_ae_ren_data at h
  split at h
  · split at h
    · split at h
      · injection h with h'
        subst h'
        exact ⟨⟨_, by assumption⟩, rfl, rfl, rfl⟩
      · cases h
    · cases h
  · cases h

/-- A path not containing the root prefix makes the `[1]` subscript raise
`IndexError`, which the handler converts to the failure record carrying the
original path. -/
theorem parse_no_root (p : Str) (h : ¬ sep_root <:+: p) :
    parse_ae_ren_data p = ParseOutcome.failure ⟨p, indexErrorTrace⟩ := by
  unfold parse_ae_ren_data
  rw [pySplit_eq_single sep_root p h]

/-- A remainder with a segment count other than eight makes the 8-way unpack
raise `ValueError`, which the handler converts to the failure record carrying
the original path. -/
theorem parse_wrong_count (rest : Str) (hroot : ¬ sep_root <:+: rest)
    (hlen : (pySplit sep_slash rest).length ≠ 8) :
    parse_ae_ren_data (sep_root ++ rest) =
      ParseOutcome.failure ⟨sep_root ++ rest, valueErrorTrace⟩ := by
  unfold parse_ae_ren_data
  rw [pySplit_root_append rest hroot]
  rcases hps : pySplit sep_slash rest with _ |
    ⟨x₁, _ | ⟨x₂, _ | ⟨x₃, _ | ⟨x₄, _ | ⟨x₅, _ | ⟨x₆, _ | ⟨x₇, _ |
      ⟨x₈, _ | ⟨x₉, l₉⟩⟩⟩⟩⟩⟩⟩⟩⟩ <;>
    simp_all

/-- Claim C1, code bug: on a path with valid eight-segment structure whose
simulation token is absent from the lookup table, the parser does not return
a Parse Failure Record; the `simulation_dict[source_id]` subscript sits
outside the try/except, so the `KeyError` escapes uncaught, contradicting the
claim (and the function's own docstring, which promises a dictionary with
error details whenever parsing fails). -/
theorem c1_unknown_token_uncaught_keyerror :
    parse_ae_ren_data
      "s3://wfclimres/ERA/pv_distributed/unknown-model-x/historical/1hr/cf/d03/.zmetadata".toList
    = ParseOutcome.uncaughtKeyError "unknown-model-x".toList := by
  decide

/-- Claim C2, counterexample: the claim says the first segment after the root
prefix ("AAA" here) is reused as the `installation` attribute; in fact that
segment is discarded and `installation` is copied from the second segment
("BBB" here). -/
theorem c2_counterexample_first_segment_discarded :
    parse_ae_ren_data
      "s3://wfclimres/AAA/BBB/ec-earth3/historical/1hr/cf/d03/.zmetadata".toList
    = ParseOutcome.success
        ⟨"BBB".toList, "WRF".toList, "ERA".toList, "EC-Earth3".toList,
         "historical".toList, "1hr".toList, "cf".toList, "d03".toList,
         "s3://wfclimres/AAA/BBB/ec-earth3/historical/1hr/cf/d03/".toList⟩
    ∧ "BBB".toList ≠ "AAA".toList := by
  constructor
  · decide
  · decide

/-- Claim C2 as amended: for every successfully parsed path, `activity_id`
and `institution_id` are the fixed constants "WRF" and "ERA"; the first
segment after the root prefix (the path's institution segment) is not used at
all; `installation` is copied from the second segment; and `experiment_id`,
`table_id`, `variable_id`, `grid_label` are copied verbatim from segments
four to seven. -/
theorem c2_amended_field_mapping (rest s₁ s₂ s₃ s₄ s₅ s₆ s₇ s₈ c : Str)
    (hsplit : pySplit sep_slash rest = [s₁, s₂, s₃, s₄, s₅, s₆, s₇, s₈])
    (hroot : ¬ sep_root <:+: rest)
    (hlook : List.lookup s₃ simulation_dict = some c) :
    parse_ae_ren_data (sep_root ++ rest) =
      ParseOutcome.success
        ⟨s₂, "WRF".toList, "ERA".toList, c, s₄, s₅, s₆, s₇,
         stripZmetadata (sep_root ++ rest)⟩ :=
  parse_success_shape rest s₁ s₂ s₃ s₄ s₅ s₆ s₇ s₈ c hsplit hroot hlook

/-- Witness for the amended C2 at a concrete path. -/
theorem c2_amended_field_mapping_witness :
    parse_ae_ren_data
      (sep_root ++ "era/pv_distributed/ec-earth3/historical/1hr/cf/d03/.zmetadata".toList) =
      ParseOutcome.success
        ⟨"pv_distributed".toList, "WRF".toList, "ERA".toList, "EC-Earth3".toList,
         "historical".toList, "1hr".toList, "cf".toList, "d03".toList,
         stripZmetadata
           (sep_root ++ "era/pv_distributed/ec-earth3/historical/1hr/cf/d03/.zmetadata".toList)⟩ :=
  c2_amended_field_mapping
    "era/pv_distributed/ec-earth3/historical/1hr/cf/d03/.zmetadata".toList
    "era".toList "pv_distributed".toList "ec-earth3".toList "historical".toList
    "1hr".toList "cf".toList "d03".toList ".zmetadata".toList "EC-Earth3".toList
    (by decide) (by decide) (by decide)

/-- Claim C6: parsing the documented concrete path succeeds with the
canonicalized source_id "EC-Earth3", the stated verbatim fields, and the path
equal to the input with the terminal ".zmetadata" stripped. -/
theorem c6_concrete_canonicalization :
    parse_ae_ren_data
      "s3://wfclimres/ERA/pv_distributed/ec-earth3/historical/1hr/cf/d03/.zmetadata".toList
    = ParseOutcome.success
        ⟨"pv_distributed".toList, "WRF".toList, "ERA".toList, "EC-Earth3".toList,
         "historical".toList, "1hr".toList, "cf".toList, "d03".toList,
         "s3://wfclimres/ERA/pv_distributed/ec-earth3/historical/1hr/cf/d03/".toList⟩
    ∧ "s3://wfclimres/ERA/pv_distributed/ec-earth3/historical/1hr/cf/d03/".toList
        ++ ".zmetadata".toList
      = "s3://wfclimres/ERA/pv_distributed/ec-earth3/historical/1hr/cf/d03/.zmetadata".toList := by
  constructor
  · decide
  · decide

/-- Claim C8: the parser is a deterministic function of its input: two
invocations on the same path always yield the same outcome (the embedding is
a pure function; the source touches no global state, its lookup table is a
local literal). -/
theorem c8_deterministic (p : Str) (o₁ o₂ : ParseOutcome)
    (h₁ : parse_ae_ren_data p = o₁) (h₂ : parse_ae_ren_data p = o₂) :
    o₁ = o₂ :=
  h₁.symm.trans h₂

/-- Witness for C8 at a concrete path. -/
theorem c8_deterministic_witness :
    (ParseOutcome.failure ⟨[], indexErrorTrace⟩ : ParseOutcome) =
      ParseOutcome.failure ⟨[], indexErrorTrace⟩ :=
  c8_deterministic [] (ParseOutcome.failure ⟨[], indexErrorTrace⟩)
    (ParseOutcome.failure ⟨[], indexErrorTrace⟩) (by decide) (by decide)

/-- Claim C9: the root prefix is located by substring split, not anchored at
the start: this input does not start with the prefix, yet parsing succeeds
and the fields come from the text after the first occurrence of the
prefix. -/
theorem c9_root_located_by_substring_split :
    ¬ sep_root <+:
        "junk-s3://wfclimres/era/pv_distributed/ec-earth3/historical/1hr/cf/d03/.zmetadata".toList
    ∧ parse_ae_ren_data
        "junk-s3://wfclimres/era/pv_distributed/ec-earth3/historical/1hr/cf/d03/.zmetadata".toList
      = ParseOutcome.success
          ⟨"pv_distributed".toList, "WRF".toList, "ERA".toList, "EC-Earth3".toList,
           "historical".toList, "1hr".toList, "cf".toList, "d03".toList,
           "junk-s3://wfclimres/era/pv_distributed/ec-earth3/historical/1hr/cf/d03/".toList⟩ := by
  constructor
  · decide
  · decide

/-- Claim C3, counterexample: a path of the root prefix followed by exactly
eight '/'-separated segments with a known simulation token where the second
segment is empty parses successfully, but the record's `installation` field
is the empty string, refuting the claim that every output field is
non-empty. -/
theorem c3_counterexample_empty_segment :
    parse_ae_ren_data
      "s3://wfclimres/era//ec-earth3/historical/1hr/cf/d03/.zmetadata".toList
    = ParseOutcome.success
        ⟨[], "WRF".toList, "ERA".toList, "EC-Earth3".toList, "historical".toList,
         "1hr".toList, "cf".toList, "d03".toList,
         "s3://wfclimres/era//ec-earth3/historical/1hr/cf/d03/".toList⟩
    ∧ ¬ allNonEmpty
        ⟨[], "WRF".toList, "ERA".toList, "EC-Earth3".toList, "historical".toList,
         "1hr".toList, "cf".toList, "d03".toList,
         "s3://wfclimres/era//ec-earth3/historical/1hr/cf/d03/".toList⟩ := by
  constructor
  · decide
  · decide

/-- Claim C3 as amended: for every path of the root prefix followed by exactly
eight '/'-separated segments, where the third segment is a key of the lookup
table, the eighth segment is the metadata filename ".zmetadata", the
field-producing segments are non-empty, the root prefix does not reoccur in
the remainder, and ".zmetadata" does not occur before the terminal filename:
parsing succeeds, every output field is a non-empty string, and the path
field equals the input with the terminal ".zmetadata" removed. -/
theorem c3_amended_valid_paths (rest s₁ s₂ s₃ s₄ s₅ s₆ s₇ c : Str)
    (hsplit : pySplit sep_slash rest = [s₁, s₂, s₃, s₄, s₅, s₆, s₇, sep_zme])
    (hroot : ¬ sep_root <:+: rest)
    (hlook : List.lookup s₃ simulation_dict = some c)
    (hne : s₂ ≠ [] ∧ s₄ ≠ [] ∧ s₅ ≠ [] ∧ s₆ ≠ [] ∧ s₇ ≠ [])
    (hfirst : NoEarlyOcc sep_zme
      (sep_root ++ (s₁ ++ sep_slash ++ (s₂ ++ sep_slash ++ (s₃ ++ sep_slash ++
        (s₄ ++ sep_slash ++ (s₅ ++ sep_slash ++ (s₆ ++ sep_slash ++
          (s₇ ++ sep_slash)))))))) []) :
    ∃ r : CatalogRecord,
      parse_ae_ren_data (sep_root ++ rest) = ParseOutcome.success r ∧
      allNonEmpty r ∧ r.path ++ sep_zme = sep_root ++ rest := by
  have hrest : joinSep sep_slash [s₁, s₂, s₃, s₄, s₅, s₆, s₇, sep_zme] = rest := by
    rw [← hsplit]
    exact joinSep_pySplit sep_slash rest
  have hkey : sep_root ++ rest =
      (sep_root ++ (s₁ ++ sep_slash ++ (s₂ ++ sep_slash ++ (s₃ ++ sep_slash ++
        (s₄ ++ sep_slash ++ (s₅ ++ sep_slash ++ (s₆ ++ sep_slash ++
          (s₇ ++ sep_slash)))))))) ++ (sep_zme ++ []) := by
    rw [← hrest]
    simp only [joinSep, List.append_assoc, List.append_nil]
  have hstrip : stripZmetadata (sep_root ++ rest) =
      sep_root ++ (s₁ ++ sep_slash ++ (s₂ ++ sep_slash ++ (s₃ ++ sep_slash ++
        (s₄ ++ sep_slash ++ (s₅ ++ sep_slash ++ (s₆ ++ sep_slash ++
          (s₇ ++ sep_slash))))))) := by
    unfold stripZmetadata
    rw [hkey, pySplit_first_occ sep_zme [] (by decide) _ hfirst]
    rfl
  have hshape := parse_success_shape rest s₁ s₂ s₃ s₄ s₅ s₆ s₇ sep_zme c
    hsplit hroot hlook
  refine ⟨_, hshape, ?_, ?_⟩
  · have hc : c ≠ [] :=
      canonicalNames_ne_nil c (lookup_simulation_dict_mem s₃ c hlook)
    refine ⟨hne.1, (by decide : "WRF".toList ≠ ([] : Str)),
      (by decide : "ERA".toList ≠ ([] : Str)), hc, hne.2.1, hne.2.2.1,
      hne.2.2.2.1, hne.2.2.2.2, ?_⟩
    show stripZmetadata (sep_root ++ rest) ≠ []
    rw [hstrip]
    intro h0
    rw [List.append_eq_nil] at h0
    exact absurd h0.1 (by decide)
  · show stripZmetadata (sep_root ++ rest) ++ sep_zme = sep_root ++ rest
    rw [hstrip, hkey]
    simp [List.append_assoc]

/-- Witness for the amended C3 at a concrete path. -/
theorem c3_amended_valid_paths_witness :
    ∃ r : CatalogRecord,
      parse_ae_ren_data
        (sep_root ++ "era/pv_distributed/taiesm1/ssp370/mon/t2/d01/.zmetadata".toList)
        = ParseOutcome.success r ∧
      allNonEmpty r ∧
      r.path ++ sep_zme =
        sep_root ++ "era/pv_distributed/taiesm1/ssp370/mon/t2/d01/.zmetadata".toList :=
  c3_amended_valid_paths
    "era/pv_distributed/taiesm1/ssp370/mon/t2/d01/.zmetadata".toList
    "era".toList "pv_distributed".toList "taiesm1".toList "ssp370".toList
    "mon".toList "t2".toList "d01".toList "TaiESM1".toList
    (by decide) (by decide) (by decide) (by decide) (by decide)

/-- Claim C4: a path not containing the root prefix, or whose remainder after
the root prefix has a segment count other than eight, produces a Parse
Failure Record whose invalid-asset field is the original input unchanged. -/
theorem c4_structural_failures :
    (∀ p : Str, ¬ sep_root <:+: p →
        parse_ae_ren_data p = ParseOutcome.failure ⟨p, indexErrorTrace⟩) ∧
    (∀ rest : Str, ¬ sep_root <:+: rest → (pySplit sep_slash rest).length ≠ 8 →
        parse_ae_ren_data (sep_root ++ rest) =
          ParseOutcome.failure ⟨sep_root ++ rest, valueErrorTrace⟩) :=
  ⟨parse_no_root, parse_wrong_count⟩

/-- Witness for C4: a path without the prefix, and a five-segment remainder. -/
theorem c4_structural_failures_witness :
    parse_ae_ren_data "https://example.org/data.nc".toList =
      ParseOutcome.failure ⟨"https://example.org/data.nc".toList, indexErrorTrace⟩ ∧
    parse_ae_ren_data (sep_root ++ "era/pv_distributed/ec-earth3/historical/1hr".toList) =
      ParseOutcome.failure
        ⟨sep_root ++ "era/pv_distributed/ec-earth3/historical/1hr".toList,
         valueErrorTrace⟩ :=
  ⟨c4_structural_failures.1 "https://example.org/data.nc".toList (by decide),
   c4_structural_failures.2 "era/pv_distributed/ec-earth3/historical/1hr".toList
     (by decide) (by decide)⟩

/-- Claim C5: whenever the parser returns a Catalog Record, its source_id is
one of the five canonical display names of the lookup table, and never one of
the raw lowercase tokens (the table's keys). -/
theorem c5_source_id_canonical (p : Str) (r : CatalogRecord)
    (h : parse_ae_ren_data p = ParseOutcome.success r) :
    r.source_id ∈ canonicalNames ∧
    r.source_id ∉ simulation_dict.map Prod.fst := by
  obtain ⟨⟨k, hk⟩, -, -, -⟩ := parse_success_inv p r h
  have hmem := lookup_simulation_dict_mem k r.source_id hk
  refine ⟨hmem, ?_⟩
  simp only [canonicalNames, List.mem_cons, List.not_mem_nil, or_false] at hmem
  rcases hmem with h1 | h1 | h1 | h1 | h1 <;> rw [h1] <;> decide

/-- Witness for C5 at a concrete path. -/
theorem c5_source_id_canonical_witness :
    "EC-Earth3".toList ∈ canonicalNames ∧
    "EC-Earth3".toList ∉ simulation_dict.map Prod.fst :=
  c5_source_id_canonical
    "s3://wfclimres/era/pv_utility/ec-earth3/ssp370/day/cf/d01/.zmetadata".toList
    ⟨"pv_utility".toList, "WRF".toList, "ERA".toList, "EC-Earth3".toList,
     "ssp370".toList, "day".toList, "cf".toList, "d01".toList,
     "s3://wfclimres/era/pv_utility/ec-earth3/ssp370/day/cf/d01/".toList⟩
    (by decide)

/-- Claim C7: whenever the parser returns a Catalog Record, its path field
never ends with ".zmetadata". -/
theorem c7_path_never_ends_zmetadata (p : Str) (r : CatalogRecord)
    (h : parse_ae_ren_data p = ParseOutcome.success r) :
    ¬ sep_zme <:+ r.path := by
  obtain ⟨-, -, -, hpath⟩ := parse_success_inv p r h
  rw [hpath]
  intro hsuf
  exact pySplit_headD_clean sep_zme (by decide) p hsuf.isInfix

/-- Witness for C7 at a concrete path. -/
theorem c7_path_never_ends_zmetadata_witness :
    ¬ sep_zme <:+ "s3://wfclimres/era/windpower_onshore/era5/reanalysis/1hr/ws/d02/".toList :=
  c7_path_never_ends_zmetadata
    "s3://wfclimres/era/windpower_onshore/era5/reanalysis/1hr/ws/d02/.zmetadata".toList
    ⟨"windpower_onshore".toList, "WRF".toList, "ERA".toList, "ERA5".toList,
     "reanalysis".toList, "1hr".toList, "ws".toList, "d02".toList,
     "s3://wfclimres/era/windpower_onshore/era5/reanalysis/1hr/ws/d02/".toList⟩
    (by decide)

/-- Claim C10: the eighth (terminal) segment is never inspected: any
eight-segment path with a known simulation token parses successfully whatever
its last segment is; when ".zmetadata" does not occur in the input the path
field is the input unchanged; and when it does occur the path field is the
input truncated at its first occurrence. -/
theorem c10_terminal_ignored_and_truncation :
    (∀ rest s₁ s₂ s₃ s₄ s₅ s₆ s₇ s₈ c : Str,
        pySplit sep_slash rest = [s₁, s₂, s₃, s₄, s₅, s₆, s₇, s₈] →
        ¬ sep_root <:+: rest →
        List.lookup s₃ simulation_dict = some c →
        parse_ae_ren_data (sep_root ++ rest) =
          ParseOutcome.success
            ⟨s₂, "WRF".toList, "ERA".toList, c, s₄, s₅, s₆, s₇,
             stripZmetadata (sep_root ++ rest)⟩) ∧
    (∀ p : Str, ¬ sep_zme <:+: p → stripZmetadata p = p) ∧
    (∀ a t : Str, NoEarlyOcc sep_zme a t →
        stripZmetadata (a ++ (sep_zme ++ t)) = a) := by
  refine ⟨fun rest s₁ s₂ s₃ s₄ s₅ s₆ s₇ s₈ c h1 h2 h3 =>
      parse_success_shape rest s₁ s₂ s₃ s₄ s₅ s₆ s₇ s₈ c h1 h2 h3, ?_, ?_⟩
  · intro p hp
    unfold stripZmetadata
    rw [pySplit_eq_single sep_zme p hp]
    rfl
  · intro a t hfirst
    unfold stripZmetadata
    rw [pySplit_first_occ sep_zme t (by decide) a hfirst]
    rfl

/-- Witness for C10: a terminal segment that is not ".zmetadata" still
parses, with the path equal to the input; and an occurrence of ".zmetadata"
in the middle truncates there. -/
theorem c10_terminal_ignored_witness :
    parse_ae_ren_data
      (sep_root ++ "era/pv_utility/miroc6/ssp370/day/cf/d02/data.json".toList) =
      ParseOutcome.success
        ⟨"pv_utility".toList, "WRF".toList, "ERA".toList, "MIROC6".toList,
         "ssp370".toList, "day".toList, "cf".toList, "d02".toList,
         stripZmetadata
           (sep_root ++ "era/pv_utility/miroc6/ssp370/day/cf/d02/data.json".toList)⟩ ∧
    stripZmetadata (sep_root ++ "era/pv_utility/miroc6/ssp370/day/cf/d02/data.json".toList) =
      sep_root ++ "era/pv_utility/miroc6/ssp370/day/cf/d02/data.json".toList ∧
    stripZmetadata ("s3://wfclimres/era/x".toList ++ (sep_zme ++ ".bak/tail".toList)) =
      "s3://wfclimres/era/x".toList :=
  ⟨c10_terminal_ignored_and_truncation.1
      "era/pv_utility/miroc6/ssp370/day/cf/d02/data.json".toList
      "era".toList "pv_utility".toList "miroc6".toList "ssp370".toList
      "day".toList "cf".toList "d02".toList "data.json".toList "MIROC6".toList
      (by decide) (by decide) (by decide),
   c10_terminal_ignored_and_truncation.2.1
      (sep_root ++ "era/pv_utility/miroc6/ssp370/day/cf/d02/data.json".toList)
      (by decide),
   c10_terminal_ignored_and_truncation.2.2
      "s3://wfclimres/era/x".toList ".bak/tail".toList (by decide)⟩
